import Mathlib

/-!
Verification of the KH-AI-V2 Conversational Session Engine.

This file gives a shallow embedding of the session/message data model and of
the operations of the engine (src/App.tsx, src/components/IconButton.tsx
utility section, src/components/ChatInterface.tsx input section,
src/utils/tts.ts types), and proves properties of the embedding.

Dates are modelled as natural-number timestamps.  JavaScript truthiness of
optional string fields is modelled explicitly.  Streaming is modelled as a
list of chunks together with the index at which the abort signal becomes
observable.
-/

namespace KHAI

/-! ## Data model (src/utils/tts.ts) -/

/-- Sender enum: USER = 'user', AI = 'ai'. -/
inductive Sender where
  | user
  | ai
deriving DecidableEq, Repr

/-- FilePart: name, mimeType, base64 data (possibly with a data-URL front matter). -/
structure FilePart where
  name : String
  mimeType : String
  data : String
deriving DecidableEq, Repr

/-- ChatMessage as in src/utils/tts.ts: optional text, optional attachments,
isLoading flag (undefined modelled as false) and optional error detail. -/
structure ChatMessage where
  id : String
  sender : Sender
  timestamp : Nat
  textPart : Option String := none
  fileParts : Option (List FilePart) := none
  isLoading : Bool := false
  error : Option String := none
deriving DecidableEq, Repr

/-- ChatHistoryItem: one session. -/
structure ChatHistoryItem where
  id : String
  title : String
  messages : List ChatMessage
  createdAt : Nat
  lastUpdatedAt : Nat
deriving DecidableEq, Repr

/-- JavaScript truthiness of an optional string: undefined and the empty
string are falsy. -/
def jsTruthyStr : Option String → Bool
  | none => false
  | some s => s ≠ ""

/-! ## History conversion (convertToGeminiHistory, src/components/IconButton.tsx lines 127-152) -/

/-- A part sent to the remote API: text or inline data. -/
inductive GPart where
  | text (s : String)
  | inlineData (mimeType : String) (data : String)
deriving DecidableEq, Repr

/-- One entry of the seed history handed to the remote context creation. -/
structure GEntry where
  role : String
  parts : List GPart
deriving DecidableEq, Repr

/-- JavaScript String.prototype.trim, modelled structurally on the character
list: strip whitespace from both ends. -/
def jsTrim (s : String) : String :=
  String.mk (((s.data.dropWhile Char.isWhitespace).reverse.dropWhile Char.isWhitespace).reverse)

/-- JavaScript String.prototype.startsWith, modelled structurally on the
character list. -/
def jsStartsWith (s pre : String) : Bool :=
  pre.data.isPrefixOf s.data

/-- Everything after the first comma of a character list, when there is one. -/
def afterCommaChars : List Char → Option (List Char)
  | [] => none
  | c :: rest => if c = ',' then some rest else afterCommaChars rest

/-- Models fp.data.substring(fp.data.indexOf(',') + 1): everything after the
first comma, or the whole string when there is no comma. -/
def afterFirstComma (s : String) : String :=
  match afterCommaChars s.data with
  | some rest => String.mk rest
  | none => s

/-- The parts list built for one message: the trimmed text when truthy and
non-blank, followed by one inlineData part per attachment. -/
def messageParts (m : ChatMessage) : List GPart :=
  (match m.textPart with
   | some t => if t ≠ "" && jsTrim t ≠ "" then [GPart.text (jsTrim t)] else []
   | none => []) ++
  (match m.fileParts with
   | some fps => fps.map (fun fp => GPart.inlineData fp.mimeType (afterFirstComma fp.data))
   | none => [])

/-- The entry built for one message: role 'user' for USER, 'model' otherwise. -/
def mkGEntry (m : ChatMessage) : GEntry :=
  { role := if m.sender = Sender.user then "user" else "model"
    parts := messageParts m }

/-- convertToGeminiHistory: drop loading and errored messages, build entries,
then drop entries with no parts. -/
def convertToGeminiHistory (messages : List ChatMessage) : List GEntry :=
  (((messages.filter (fun m => !m.isLoading && !jsTruthyStr m.error)).map mkGEntry).filter
    (fun e => e.parts.length > 0))

/-! ## Seed-history validation (src/App.tsx lines 293-310 and 653-671) -/

/-- The adjacent-same-role loop of the validation (for i, compare role i with
role i+1). -/
def hasAdjacentSameRole : List GEntry → Bool
  | a :: b :: rest => a.role == b.role || hasAdjacentSameRole (b :: rest)
  | _ => false

/-- The validation applied to the converted history before opening a remote
context: an empty conversion result, a first entry whose role is not 'user',
or any adjacent equal pair all turn the seed history into none (undefined);
otherwise the history is passed through unchanged. -/
def validateHistory (h : List GEntry) : Option (List GEntry) :=
  match h with
  | [] => none
  | a :: _ =>
    if a.role ≠ "user" then none
    else if hasAdjacentSameRole h then none
    else some h

/-- The opposite role in a user/model alternation. -/
def otherRole (r : String) : String :=
  if r = "user" then "model" else "user"

/-- Role sequence alternation check: the list starts with the expected role
and alternates from there. -/
def altFrom : String → List GEntry → Bool
  | _, [] => true
  | e, a :: rest => a.role == e && altFrom (otherRole e) rest

/-! ## Streaming accumulation (src/App.tsx lines 920-943) -/

/-- The marker appended when the abort signal is observed inside the loop. -/
def stopMarker : String := " (Stopped)"

/-- The error detail the code writes for a cancelled generation. -/
def stoppedByUserDetail : String := "Generation stopped by user."

/-- The stream loop: each chunk may carry text (undefined chunk text is
skipped); the abort signal becomes observable after abortAt chunks, and when
it is observed at the top of an iteration the stop marker is appended and the
loop breaks. -/
def streamAccum : List (Option String) → Option Nat → String → String
  | [], _, acc => acc
  | _ :: _, some 0, acc => acc ++ stopMarker
  | c :: cs, some (k + 1), acc => streamAccum cs (some k) (acc ++ c.getD "")
  | c :: cs, none, acc => streamAccum cs none (acc ++ c.getD "")

/-- finalAiMessage (lines 936-943): the finalized MODEL message after the
stream loop ends or breaks, error detail set exactly when the abort signal
was raised. -/
def finalizeAiMessage (aiMessageId : String) (now : Nat)
    (chunks : List (Option String)) (abortAt : Option Nat) : ChatMessage :=
  { id := aiMessageId
    sender := Sender.ai
    timestamp := now
    textPart := some (streamAccum chunks abortAt "")
    fileParts := none
    isLoading := false
    error := if abortAt.isSome then some stoppedByUserDetail else none }

/-- errorAiMessage (lines 975-982): the finalized MODEL message after the
catch branch of a failed stream. -/
def finalizeErrorAiMessage (aiMessageId : String) (now : Nat)
    (accumulated errText : String) : ChatMessage :=
  { id := aiMessageId
    sender := Sender.ai
    timestamp := now
    textPart := some (accumulated ++ "Error: " ++ errText)
    fileParts := none
    isLoading := false
    error := some ("AI Error: " ++ errText) }

/-- The message status vocabulary of the specification. -/
inductive MsgStatus where
  | pending
  | streaming
  | complete
  | errored
  | cancelled
deriving DecidableEq, Repr

/-- Refinement mapping, following the specification's status vocabulary: a
loading message with no text yet is PENDING, a loading message with text is
STREAMING, a finalized message with no error detail is COMPLETE, one whose
error detail is the code's cancellation detail is CANCELLED, and any other
error detail is ERRORED. -/
def specStatusOfMessage (m : ChatMessage) : MsgStatus :=
  if m.isLoading then
    match m.textPart with
    | none => MsgStatus.pending
    | some _ => MsgStatus.streaming
  else
    match m.error with
    | none => MsgStatus.complete
    | some e => if e = stoppedByUserDetail then MsgStatus.cancelled else MsgStatus.errored

/-! ## Edit-and-regenerate (src/App.tsx lines 577-791) -/

/-- Models messages.findIndex(msg => msg.id === editingMessageId), with the
not-found -1 result as none. -/
def findMsgIndex (msgs : List ChatMessage) (targetId : String) : Option Nat :=
  match msgs with
  | [] => none
  | m :: rest =>
    if m.id = targetId then some 0
    else (findMsgIndex rest targetId).map (· + 1)

/-- updatedUserMessage (lines 597-601): the edited USER message keeps all its
fields (attachments included) except the text part and the timestamp. -/
def updatedUserMessage (orig : ChatMessage) (trimmedInput : String) (now : Nat) : ChatMessage :=
  { orig with textPart := some trimmedInput, timestamp := now }

/-- finalRegeneratedAiMessage (lines 714-721): the regeneration target keeps
its id, the streamed text is written, attachments cleared, and the error
detail records a user stop when the abort signal was raised. -/
def finalRegeneratedAiMessage (target : ChatMessage) (accumulated : String)
    (now : Nat) (aborted : Bool) : ChatMessage :=
  { target with
    textPart := some accumulated
    timestamp := now
    isLoading := false
    error := if aborted then some stoppedByUserDetail else none
    fileParts := none }

/-- The message-list update of the completed regeneration (lines 725-742):
every message is mapped in place, the regeneration target replaced by the
final regenerated message, the edited message by its updated version. -/
def regenFinalMessages (msgs : List ChatMessage) (editingMessageId regenId : String)
    (updatedUser finalAi : ChatMessage) : List ChatMessage :=
  msgs.map fun msg =>
    if msg.id = regenId then finalAi
    else if msg.id = editingMessageId then updatedUser
    else msg

/-- The effect of the whole edit branch of handleSendMessage on the active
session's message list, at the point where the regeneration stream has
completed with the given accumulated text.  An empty trimmed input is
rejected before any mutation (line 578); an unknown edit target leaves the
list unchanged (line 591); when the next message is a MODEL reply it is the
regeneration target (lines 618-622), otherwise the edit is a plain content
update (line 779). -/
def editAndRegenerate (msgs : List ChatMessage) (editingMessageId trimmedInput : String)
    (accumulated : String) (tEdit tFinal : Nat) (aborted : Bool) : List ChatMessage :=
  if trimmedInput = "" then msgs
  else
    match findMsgIndex msgs editingMessageId with
    | none => msgs
    | some i =>
      match msgs[i]? with
      | none => msgs
      | some orig =>
        let updated := updatedUserMessage orig trimmedInput tEdit
        match msgs[i + 1]? with
        | some nxt =>
          if nxt.sender = Sender.ai then
            regenFinalMessages msgs editingMessageId nxt.id updated
              (finalRegeneratedAiMessage nxt accumulated tFinal aborted)
          else msgs.map (fun m => if m.id = editingMessageId then updated else m)
        | none => msgs.map (fun m => if m.id = editingMessageId then updated else m)

/-! ## Generation handles (src/App.tsx lines 154, 518-522, 645-646, 794-796, 901) -/

/-- The ephemeral generation bookkeeping: the isSendingMessage flag, the
current abort-controller handle (by numeric identity), and the set of handles
on which abort() has been invoked. -/
structure GenState where
  isSendingMessage : Bool
  abortHandle : Option Nat
  abortedHandles : List Nat
deriving DecidableEq, Repr

/-- handleStopGeneration (lines 518-522): abort the current handle when one
exists; the reference itself is left in place. -/
def handleStopGeneration (s : GenState) : GenState :=
  match s.abortHandle with
  | some h => { s with abortedHandles := h :: s.abortedHandles }
  | none => s

/-- The send-path guard and handle assignment of handleSendMessage (lines
796, 816 and 901): the send is refused exactly when isSendingMessage is set
and no handle exists; otherwise a fresh handle is installed, without any
abort of the handle it replaces. -/
def startNewSend (s : GenState) (freshHandle : Nat) : Option GenState :=
  if s.isSendingMessage && s.abortHandle.isNone then none
  else some { s with isSendingMessage := true, abortHandle := some freshHandle }

/-- The action the input control takes on submit. -/
inductive SubmitAction where
  | stopGeneration
  | send (files : Option (List String))
  | ignored
deriving DecidableEq, Repr

/-- handleSubmitOrStop (src/components/ChatInterface.tsx lines 489-504):
while loading the control requests a stop instead of a send; otherwise the
disabled/empty guards apply and a send is issued (with no files when
editing). -/
def handleSubmitOrStop (isLoading isChatDisabled isEditing : Bool)
    (inputValue : String) (selectedFiles : List String) : SubmitAction :=
  if isLoading then SubmitAction.stopGeneration
  else if isChatDisabled && !isEditing then SubmitAction.ignored
  else if jsTrim inputValue = "" && selectedFiles.isEmpty && !isEditing then SubmitAction.ignored
  else if isEditing && jsTrim inputValue = "" then SubmitAction.ignored
  else SubmitAction.send
    (if isEditing then none
     else if selectedFiles.length > 0 then some selectedFiles else none)

/-! ## Application state and session operations (src/App.tsx) -/

/-- Sorting by lastUpdatedAt descending, as used after every history
mutation. -/
def sortByRecency (l : List ChatHistoryItem) : List ChatHistoryItem :=
  l.mergeSort (fun a b => b.lastUpdatedAt ≤ a.lastUpdatedAt)

/-- The slice of component state the session operations touch, together with
the persisted copies written through saveChatHistories / saveActiveChatId. -/
structure AppState where
  chatHistories : List ChatHistoryItem
  activeChatId : Option String
  currentMessages : List ChatMessage
  editingMessageId : Option String
  inputValue : String
  isSendingMessage : Bool
  errorBanner : Option String
  persisted : List ChatHistoryItem
  persistedActiveId : Option String
deriving DecidableEq, Repr

/-- The greeting message handleNewChat seeds a fresh session with (lines
372-380). -/
def greetingMessage (newChatId : String) (now : Nat) : ChatMessage :=
  { id := "ai-greeting-" ++ newChatId
    sender := Sender.ai
    timestamp := now
    textPart := some "Hello! I'm your KH AI assistant. How can I help you today? You can also upload images or PDFs."
    isLoading := false }

/-- The fresh session handleNewChat builds (lines 368-388): auto-generated
title, greeting unless suppressed, both timestamps at now. -/
def newChatItem (newChatId timeStr : String) (now : Nat) (suppressGreeting : Bool) :
    ChatHistoryItem :=
  { id := newChatId
    title := "New Chat " ++ timeStr
    messages := if suppressGreeting then [] else [greetingMessage newChatId now]
    createdAt := now
    lastUpdatedAt := now }

/-- setActiveChatId (lines 224-241): sets and persists the active id, clears
the edit state and the input, and aborts any in-flight generation. -/
def setActiveChatId (s : AppState) (id : Option String) : AppState :=
  { s with
    activeChatId := id
    persistedActiveId := id
    editingMessageId := none
    inputValue := ""
    isSendingMessage := false }

/-- handleNewChat (lines 348-399) with suppressGreeting false: cancel any
edit, require an AI instance, create the session, sort and persist, select
it and show its messages. -/
def handleNewChat (s : AppState) (aiAvailable apiKeyMissing : Bool)
    (newChatId timeStr : String) (now : Nat) : AppState :=
  let s1 := { s with editingMessageId := none, inputValue := "" }
  if !aiAvailable || apiKeyMissing then
    { s1 with errorBanner := some (if apiKeyMissing
        then "Cannot start new chat: API Key is missing."
        else "Cannot start new chat: AI not initialized.") }
  else
    let item := newChatItem newChatId timeStr now false
    let hs := sortByRecency (item :: s1.chatHistories)
    let s2 := { s1 with chatHistories := hs, persisted := hs }
    let s3 := setActiveChatId s2 (some newChatId)
    { s3 with currentMessages := item.messages }

/-- handleDeleteAllChats (lines 1040-1055): clear and persist the empty
session list, then create and select a fresh session when an AI instance is
available, otherwise fall back to the empty state. -/
def handleDeleteAllChats (s : AppState) (aiAvailable apiKeyMissing : Bool)
    (newChatId timeStr : String) (now : Nat) : AppState :=
  if apiKeyMissing && !aiAvailable && s.chatHistories.length = 0 then s
  else
    let s1 := { s with editingMessageId := none, inputValue := ""
                       chatHistories := [], persisted := [] }
    if aiAvailable then handleNewChat s1 aiAvailable apiKeyMissing newChatId timeStr now
    else
      { setActiveChatId s1 none with currentMessages := [] }

/-- The edit branch of handleSendMessage (lines 577-791) on the application
state, at the point where any regeneration stream has completed: an empty
trimmed input is rejected with an error banner and no other change; a
missing active session is a guarded error; otherwise the active session's
message list is rewritten through editAndRegenerate, timestamps refreshed,
the list re-sorted and persisted, and the edit state cleared. -/
def submitEdit (s : AppState) (accumulated : String) (now : Nat) (aborted : Bool) : AppState :=
  match s.editingMessageId with
  | none => s
  | some editingId =>
    let trimmedInput := jsTrim s.inputValue
    if trimmedInput = "" then
      { s with errorBanner := some "Cannot save an empty message. Please add some text or cancel edit." }
    else
      match s.activeChatId with
      | none =>
        { s with errorBanner := some "Critical error: Active chat history not found during edit."
                 editingMessageId := none, inputValue := "" }
      | some activeId =>
        let hs := sortByRecency (s.chatHistories.map (fun h =>
          if h.id = activeId then
            { h with
              messages := editAndRegenerate h.messages editingId trimmedInput accumulated now now aborted
              lastUpdatedAt := now }
          else h))
        { s with
          chatHistories := hs
          persisted := hs
          currentMessages := editAndRegenerate s.currentMessages editingId trimmedInput accumulated now now aborted
          editingMessageId := none
          inputValue := "" }

/-! ## AI title inference (generateAndSetAiTitle, src/App.tsx lines 524-565) -/

/-- The history update performed when the title-inference call returns:
the candidate is the trimmed response text; only a truthy candidate shorter
than 50 characters is considered; only the session with the given id, and
only while its title still starts with the auto-generated "New Chat" form,
is rewritten; when nothing actually changed the previous list is kept
untouched and nothing is persisted. -/
def applyAiTitle (histories : List ChatHistoryItem) (chatId : String)
    (responseText : Option String) : List ChatHistoryItem :=
  match responseText.map jsTrim with
  | none => histories
  | some t =>
    if t ≠ "" && t.length < 50 then
      let newHistories := histories.map (fun h =>
        if h.id = chatId && jsStartsWith h.title "New Chat" then { h with title := t } else h)
      let didChange := (newHistories.zip histories).any
        (fun p => p.1.title ≠ p.2.title && p.1.id = chatId)
      if didChange then sortByRecency newHistories else histories
    else histories

/-! ## Persistence loading (loadChatHistories, src/components/IconButton.tsx lines 92-104) -/

/-- A JSON value, the possible result of JSON.parse. -/
inductive Json where
  | null
  | bool (b : Bool)
  | num (n : Int)
  | str (s : String)
  | arr (items : List Json)
  | obj (fields : List (String × Json))

/-- A Date built by the revival pass: new Date(x) never throws, whatever x
is, so the wrapped raw value (none for a missing property) is kept as is. -/
structure JsDate where
  raw : Option Json

/-- A message after parseChatHistoryItem's revival: the spread of the stored
object plus the timestamp turned into a Date. -/
structure RevivedMessage where
  fields : List (String × Json)
  timestamp : JsDate

/-- A session after parseChatHistoryItem's revival. -/
structure RevivedHistoryItem where
  fields : List (String × Json)
  messages : List RevivedMessage
  createdAt : JsDate
  lastUpdatedAt : JsDate

/-- Property lookup on an object's own fields. -/
def lookupField (fields : List (String × Json)) (k : String) : Option Json :=
  (fields.find? (fun p => p.1 = k)).map (fun p => p.2)

/-- The own properties a spread sees: only objects contribute fields. -/
def objFieldsOf : Json → List (String × Json)
  | Json.obj fs => fs
  | _ => []

/-- Sequencing of a throwing map over a list, stopping at the first raised
exception (Array.prototype.map under exceptions). -/
def mapExcept {α β : Type} (f : α → Except String β) : List α → Except String (List β)
  | [] => Except.ok []
  | a :: rest =>
    match f a with
    | Except.error e => Except.error e
    | Except.ok b =>
      match mapExcept f rest with
      | Except.error e => Except.error e
      | Except.ok bs => Except.ok (b :: bs)

/-- Revival of one stored message: reading a property of null throws; any
other value spreads, and its timestamp property (possibly missing) is turned
into a Date. -/
def parseStoredMessage : Json → Except String RevivedMessage
  | Json.null => Except.error "cannot read properties of null"
  | j => Except.ok
      { fields := objFieldsOf j
        timestamp := { raw := lookupField (objFieldsOf j) "timestamp" } }

/-- parseChatHistoryItem: item.messages.map throws unless messages is an
array; each message is revived; createdAt and lastUpdatedAt are turned into
Dates. -/
def parseChatHistoryItem : Json → Except String RevivedHistoryItem
  | Json.null => Except.error "cannot read properties of null"
  | j =>
    match lookupField (objFieldsOf j) "messages" with
    | some (Json.arr ms) =>
      match mapExcept parseStoredMessage ms with
      | Except.error e => Except.error e
      | Except.ok msgs =>
        Except.ok
          { fields := objFieldsOf j
            messages := msgs
            createdAt := { raw := lookupField (objFieldsOf j) "createdAt" }
            lastUpdatedAt := { raw := lookupField (objFieldsOf j) "lastUpdatedAt" } }
    | _ => Except.error "item.messages.map is not a function"

/-- parsedHistories.map(parseChatHistoryItem): throws unless the parsed
value is an array. -/
def decodeChatHistories : Json → Except String (List RevivedHistoryItem)
  | Json.arr items => mapExcept parseChatHistoryItem items
  | _ => Except.error "parsedHistories.map is not a function"

/-- loadChatHistories over the stored value: none models a missing key,
some none a stored string JSON.parse rejects, some (some j) a stored string
parsing to j.  Every failure is caught and turned into the empty list. -/
def loadChatHistories (stored : Option (Option Json)) : List RevivedHistoryItem :=
  match stored with
  | none => []
  | some none => []
  | some (some j) =>
    match decodeChatHistories j with
    | Except.ok hs => hs
    | Except.error _ => []

/-! ## Helper lemmas -/

theorem streamAccum_map_none (chunks : List String) (acc : String) :
    streamAccum (chunks.map some) none acc = acc ++ String.join chunks := by
  induction chunks generalizing acc with
  | nil => simp [streamAccum, String.join]
  | cons c cs ih =>
    have hj : String.join (c :: cs) = c ++ String.join cs := by
      apply String.ext
      simp [String.data_join, String.data_append]
    simp only [List.map_cons, streamAccum, ih, hj, Option.getD_some]
    rw [String.append_assoc]

theorem streamAccum_map_abort (chunks : List String) (k : Nat) (acc : String)
    (hk : k < chunks.length) :
    streamAccum (chunks.map some) (some k) acc
      = acc ++ String.join (chunks.take k) ++ stopMarker := by
  induction chunks generalizing k acc with
  | nil => simp at hk
  | cons c cs ih =>
    cases k with
    | zero =>
      simp [streamAccum, String.join, String.append_empty]
    | succ k' =>
      have hk' : k' < cs.length := by simpa using hk
      have hj : String.join (c :: cs.take k') = c ++ String.join (cs.take k') := by
        apply String.ext
        simp [String.data_join, String.data_append]
      simp only [List.map_cons, streamAccum, Option.getD_some, ih k' _ hk', List.take_succ_cons,
        hj]
      simp [String.append_assoc]

/-- Every entry the conversion produces has role 'user' or 'model'. -/
theorem role_of_convert (msgs : List ChatMessage) (e : GEntry)
    (he : e ∈ convertToGeminiHistory msgs) : e.role = "user" ∨ e.role = "model" := by
  unfold convertToGeminiHistory at he
  have h1 := (List.mem_filter.mp he).1
  obtain ⟨m, _, rfl⟩ := List.mem_map.mp h1
  by_cases hs : m.sender = Sender.user
  · left; simp [mkGEntry, hs]
  · right; simp [mkGEntry, hs]

/-- A list whose roles are all 'user' or 'model', with no adjacent equal pair,
alternates from its own head's role. -/
theorem altFrom_head_of_noAdjacent (l : List GEntry) (a : GEntry)
    (hroles : ∀ x ∈ a :: l, x.role = "user" ∨ x.role = "model")
    (hadj : hasAdjacentSameRole (a :: l) = false) :
    altFrom a.role (a :: l) = true := by
  induction l generalizing a with
  | nil => simp [altFrom]
  | cons b rest ih =>
    have hab : (a.role == b.role) = false ∧ hasAdjacentSameRole (b :: rest) = false := by
      simpa [hasAdjacentSameRole] using hadj
    have hane : a.role ≠ b.role := by
      intro h
      rw [h] at hab
      simp at hab
    have ha' := hroles a (by simp)
    have hb' := hroles b (by simp)
    have hor : otherRole a.role = b.role := by
      rcases ha' with h | h <;> rcases hb' with h2 | h2 <;>
        simp_all [otherRole]
    have htail := ih b (fun x hx => hroles x (by simp at hx ⊢; tauto)) hab.2
    calc altFrom a.role (a :: b :: rest)
        = ((a.role == a.role) && altFrom (otherRole a.role) (b :: rest)) := rfl
      _ = ((a.role == a.role) && altFrom b.role (b :: rest)) := by rw [hor]
      _ = true := by rw [htail]; simp

/-- convertToGeminiHistory as a single filterMap over the per-message
conversion. -/
def convertOne (m : ChatMessage) : Option GEntry :=
  if !m.isLoading && !jsTruthyStr m.error then
    if (mkGEntry m).parts.length > 0 then some (mkGEntry m) else none
  else none

theorem convert_eq_filterMap (msgs : List ChatMessage) :
    convertToGeminiHistory msgs = msgs.filterMap convertOne := by
  induction msgs with
  | nil => rfl
  | cons m rest ih =>
    unfold convertToGeminiHistory at ih ⊢
    by_cases h1 : (!m.isLoading && !jsTruthyStr m.error) = true
    · by_cases h2 : (mkGEntry m).parts.length > 0
      · simp [List.filter_cons, List.filterMap_cons, convertOne, h1, h2, ih]
      · simp [List.filter_cons, List.filterMap_cons, convertOne, h1, h2, ih]
    · simp [List.filter_cons, List.filterMap_cons, convertOne, h1, ih]

theorem mapExcept_ok_length {α β : Type} (f : α → Except String β) :
    ∀ (l : List α) (r : List β), mapExcept f l = Except.ok r → r.length = l.length := by
  intro l
  induction l with
  | nil =>
    intro r h
    simp only [mapExcept] at h
    cases h
    rfl
  | cons a rest ih =>
    intro r h
    simp only [mapExcept] at h
    cases hf : f a with
    | error e => rw [hf] at h; cases h
    | ok b =>
      rw [hf] at h
      cases hrest : mapExcept f rest with
      | error e => rw [hrest] at h; cases h
      | ok bs =>
        rw [hrest] at h
        cases h
        simp [ih bs hrest]

/-! ## Claims -/

/-- C8: for every uncancelled, error-free stream, the finalized MODEL message
text equals the left-to-right concatenation of all received text fragments in
receipt order, the message carries no error detail, is no longer loading, and
its status is COMPLETE. -/
theorem claim_C8 (aiMessageId : String) (now : Nat) (chunks : List String) :
    (finalizeAiMessage aiMessageId now (chunks.map some) none).textPart
        = some (String.join chunks)
    ∧ (finalizeAiMessage aiMessageId now (chunks.map some) none).error = none
    ∧ (finalizeAiMessage aiMessageId now (chunks.map some) none).isLoading = false
    ∧ specStatusOfMessage (finalizeAiMessage aiMessageId now (chunks.map some) none)
        = MsgStatus.complete := by
  refine ⟨?_, rfl, rfl, rfl⟩
  simp [finalizeAiMessage, streamAccum_map_none, String.empty_append]

/-- C2: for every stream cancelled after k fragments were received while more
output was pending, the finalized MODEL message text is the concatenation of
exactly those k fragments followed by the stop marker, and the message is
finalized with status CANCELLED, not ERRORED. -/
theorem claim_C2 (aiMessageId : String) (now : Nat) (chunks : List String) (k : Nat)
    (hk : k < chunks.length) :
    (finalizeAiMessage aiMessageId now (chunks.map some) (some k)).textPart
        = some (String.join (chunks.take k) ++ stopMarker)
    ∧ specStatusOfMessage (finalizeAiMessage aiMessageId now (chunks.map some) (some k))
        = MsgStatus.cancelled
    ∧ specStatusOfMessage (finalizeAiMessage aiMessageId now (chunks.map some) (some k))
        ≠ MsgStatus.errored := by
  refine ⟨?_, rfl, by simp [finalizeAiMessage, specStatusOfMessage, stoppedByUserDetail]⟩
  simp [finalizeAiMessage, streamAccum_map_abort chunks k "" hk, String.empty_append]

/-- C2 witness: cancelling after the fragments "Hel" and "lo " while a third
fragment was pending finalizes the text to "Hello  (Stopped)" with status
CANCELLED. -/
theorem claim_C2_witness :
    (finalizeAiMessage "ai-1" 5 (["Hel", "lo ", "world"].map some) (some 2)).textPart
        = some "Hello  (Stopped)"
    ∧ specStatusOfMessage
        (finalizeAiMessage "ai-1" 5 (["Hel", "lo ", "world"].map some) (some 2))
        = MsgStatus.cancelled := by
  have h := claim_C2 "ai-1" 5 ["Hel", "lo ", "world"] 2 (by decide)
  exact ⟨by rw [h.1]; rfl, h.2.1⟩

/-- C3: the seed history passed to the remote context creation is either
dropped entirely (none), or passed through unchanged with a role sequence
that alternates user, model, user, model, ... starting with user. -/
theorem claim_C3 (msgs : List ChatMessage) :
    validateHistory (convertToGeminiHistory msgs) = none
    ∨ (validateHistory (convertToGeminiHistory msgs) = some (convertToGeminiHistory msgs)
       ∧ altFrom "user" (convertToGeminiHistory msgs) = true) := by
  cases hm : convertToGeminiHistory msgs with
  | nil => left; simp [validateHistory]
  | cons a t =>
    by_cases h1 : a.role = "user"
    · by_cases h2 : hasAdjacentSameRole (a :: t) = true
      · left; simp [validateHistory, h1, h2]
      · right
        have h2' : hasAdjacentSameRole (a :: t) = false := by
          simpa using h2
        constructor
        · simp [validateHistory, h1, h2']
        · have hroles : ∀ x ∈ a :: t, x.role = "user" ∨ x.role = "model" := by
            intro x hx
            exact role_of_convert msgs x (hm ▸ hx)
          have := altFrom_head_of_noAdjacent t a hroles h2'
          rwa [h1] at this
    · left; simp [validateHistory, h1]

/-- C10: the history conversion drops every message that is loading or
carries a truthy error detail, drops every message whose text is blank and
which has no attachments, and every entry it produces has a non-empty parts
list; the conversion is exactly the per-message filterMap. -/
theorem claim_C10 (msgs : List ChatMessage) :
    (∀ e ∈ convertToGeminiHistory msgs, e.parts ≠ [])
    ∧ (∀ m : ChatMessage, m.isLoading = true → convertOne m = none)
    ∧ (∀ m : ChatMessage, jsTruthyStr m.error = true → convertOne m = none)
    ∧ (∀ m : ChatMessage, jsTrim (m.textPart.getD "") = "" → m.fileParts = none →
        convertOne m = none)
    ∧ convertToGeminiHistory msgs = msgs.filterMap convertOne := by
  refine ⟨?_, ?_, ?_, ?_, convert_eq_filterMap msgs⟩
  · intro e he
    unfold convertToGeminiHistory at he
    have h2 := (List.mem_filter.mp he).2
    intro hnil
    rw [hnil] at h2
    simp at h2
  · intro m hm
    simp [convertOne, hm]
  · intro m hm
    simp [convertOne, hm]
  · intro m htext hfiles
    by_cases h1 : (!m.isLoading && !jsTruthyStr m.error) = true
    · have hparts : messageParts m = [] := by
        unfold messageParts
        rw [hfiles]
        cases ht : m.textPart with
        | none => simp
        | some t =>
          rw [ht] at htext
          simp only [Option.getD_some] at htext
          simp [htext]
      simp [convertOne, h1, mkGEntry, hparts]
    · simp [convertOne, h1]

/-- C10 witness: a loading message, an errored message, and a blank message
with no attachments all convert to nothing, while a plain user message
converts to an entry with one non-empty part. -/
theorem claim_C10_witness :
    convertOne { id := "m1", sender := Sender.ai, timestamp := 0, isLoading := true } = none
    ∧ convertOne { id := "m2", sender := Sender.ai, timestamp := 0, textPart := some "x", error := some "AI Error: boom" } = none
    ∧ convertOne { id := "m3", sender := Sender.user, timestamp := 0, textPart := some "   " } = none
    ∧ convertToGeminiHistory [{ id := "m4", sender := Sender.user, timestamp := 0, textPart := some "hi" }]
        = [{ role := "user", parts := [GPart.text "hi"] }] := by
  have h := claim_C10 [{ id := "m4", sender := Sender.user, timestamp := 0, textPart := some "hi" }]
  refine ⟨h.2.1 _ rfl, h.2.2.1 _ (by decide), h.2.2.2.1 _ (by decide) rfl, ?_⟩
  rw [h.2.2.2.2]
  decide

theorem map_eq_self_of {α : Type} (l : List α) (f : α → α) (h : ∀ x ∈ l, f x = x) :
    l.map f = l := by
  induction l with
  | nil => rfl
  | cons a rest ih => simp [h a (by simp), ih (fun x hx => h x (by simp [hx]))]

theorem sortByRecency_singleton (h : ChatHistoryItem) : sortByRecency [h] = [h] :=
  List.perm_singleton.mp (List.mergeSort_perm [h] _)

theorem mem_sortByRecency {h : ChatHistoryItem} {l : List ChatHistoryItem}
    (hm : h ∈ l) : h ∈ sortByRecency l :=
  (List.mergeSort_perm l _).mem_iff.mpr hm

theorem findMsgIndex_spec :
    ∀ (msgs : List ChatMessage) (tid : String) (i : Nat),
      findMsgIndex msgs tid = some i → ∃ m, msgs[i]? = some m ∧ m.id = tid := by
  intro msgs
  induction msgs with
  | nil => intro tid i h; cases h
  | cons a rest ih =>
    intro tid i h
    simp only [findMsgIndex] at h
    by_cases ha : a.id = tid
    · rw [if_pos ha] at h
      cases h
      exact ⟨a, by simp, ha⟩
    · rw [if_neg ha] at h
      cases hr : findMsgIndex rest tid with
      | none => rw [hr] at h; cases h
      | some i' =>
        rw [hr] at h
        simp only [Option.map_some'] at h
        cases h
        obtain ⟨m, hm, hid⟩ := ih tid i' hr
        exact ⟨m, by simpa using hm, hid⟩

theorem nodup_getElem?_ne {α : Type} {l : List α} (h : l.Nodup) {j k : Nat} {a b : α}
    (hj : l[j]? = some a) (hk : l[k]? = some b) (hjk : j ≠ k) : a ≠ b := by
  intro hab
  subst hab
  obtain ⟨hjl, hje⟩ := List.getElem?_eq_some.mp hj
  obtain ⟨hkl, hke⟩ := List.getElem?_eq_some.mp hk
  exact hjk (List.Nodup.getElem_inj_iff h |>.mp (hje.trans hke.symm))

theorem nodup_map_id_getElem?_ne {l : List ChatMessage} (h : (l.map ChatMessage.id).Nodup)
    {j k : Nat} {a b : ChatMessage} (hj : l[j]? = some a) (hk : l[k]? = some b)
    (hjk : j ≠ k) : a.id ≠ b.id := by
  have hj' : (l.map ChatMessage.id)[j]? = some a.id := by
    rw [List.getElem?_map, hj]; rfl
  have hk' : (l.map ChatMessage.id)[k]? = some b.id := by
    rw [List.getElem?_map, hk]; rfl
  exact nodup_getElem?_ne h hj' hk' hjk

/-- C7: loading the persisted session list is total and never fails: a
missing stored value, a stored string that does not parse, and any parsed
value the revival pass throws on all yield the empty list; successfully
revived data is returned as is, one revived session per stored session. -/
theorem claim_C7 (stored : Option (Option Json)) :
    (stored = none → loadChatHistories stored = [])
    ∧ (stored = some none → loadChatHistories stored = [])
    ∧ (∀ j e, stored = some (some j) → decodeChatHistories j = Except.error e →
        loadChatHistories stored = [])
    ∧ (∀ j hs, stored = some (some j) → decodeChatHistories j = Except.ok hs →
        loadChatHistories stored = hs
        ∧ ∀ items, j = Json.arr items → hs.length = items.length) := by
  refine ⟨?_, ?_, ?_, ?_⟩
  · intro h; subst h; rfl
  · intro h; subst h; rfl
  · intro j e h hd
    subst h
    simp [loadChatHistories, hd]
  · intro j hs h hd
    subst h
    refine ⟨by simp [loadChatHistories, hd], ?_⟩
    intro items hj
    subst hj
    simp only [decodeChatHistories] at hd
    exact mapExcept_ok_length _ items hs hd

/-- C7 witness: a missing key, an unparseable stored string, a stored
non-array value and a stored empty array all load without failing. -/
theorem claim_C7_witness :
    loadChatHistories none = []
    ∧ loadChatHistories (some none) = []
    ∧ loadChatHistories (some (some (Json.str "garbage"))) = []
    ∧ loadChatHistories (some (some (Json.arr []))) = [] := by
  refine ⟨(claim_C7 none).1 rfl, (claim_C7 (some none)).2.1 rfl, ?_, ?_⟩
  · exact (claim_C7 (some (some (Json.str "garbage")))).2.2.1 _
      "parsedHistories.map is not a function" rfl rfl
  · exact ((claim_C7 (some (some (Json.arr [])))).2.2.2 _ [] rfl rfl).1

/-- C9: from any starting state, deleting all sessions followed by the new
session the engine then creates yields a store with exactly one session,
whose message list is the single greeting message, and whose id becomes the
active session id, in memory and in the persisted copies alike. -/
theorem claim_C9 (s : AppState) (newChatId timeStr : String) (now : Nat) :
    (handleDeleteAllChats s true false newChatId timeStr now).chatHistories
        = [newChatItem newChatId timeStr now false]
    ∧ (handleDeleteAllChats s true false newChatId timeStr now).persisted
        = [newChatItem newChatId timeStr now false]
    ∧ (handleDeleteAllChats s true false newChatId timeStr now).activeChatId = some newChatId
    ∧ (handleDeleteAllChats s true false newChatId timeStr now).persistedActiveId
        = some newChatId
    ∧ (newChatItem newChatId timeStr now false).messages = [greetingMessage newChatId now] := by
  simp [handleDeleteAllChats, handleNewChat, setActiveChatId, sortByRecency_singleton,
    newChatItem]

/-- C4 counterexample: in a state where a generation is in flight with
handle 0, the engine lets a new submission through and installs handle 1
while handle 0 is never aborted, contradicting the claim that an existing
Active Generation Handle is cancelled before a new stream begins writing. -/
theorem claim_C4_counterexample :
    startNewSend { isSendingMessage := true, abortHandle := some 0, abortedHandles := [] } 1
      = some { isSendingMessage := true, abortHandle := some 1, abortedHandles := [] }
    ∧ 0 ∉ ({ isSendingMessage := true, abortHandle := some 1, abortedHandles := [] } : GenState).abortedHandles := by
  exact ⟨rfl, by simp⟩

/-- C4 amended: the engine refuses a new submission only in the state where
a send is flagged with no live handle; when a handle exists, a new
submission proceeds and replaces the handle without aborting it; concurrent
streams are instead prevented at the input-control layer, where a submit
issued while loading requests a stop instead of a send. -/
theorem claim_C4_amended (s : GenState) (freshHandle : Nat) :
    (s.isSendingMessage = true → s.abortHandle = none → startNewSend s freshHandle = none)
    ∧ (∀ c, s.abortHandle = some c →
        startNewSend s freshHandle
          = some { s with isSendingMessage := true, abortHandle := some freshHandle })
    ∧ (∀ c s', s.abortHandle = some c → startNewSend s freshHandle = some s' →
        s'.abortedHandles = s.abortedHandles)
    ∧ (∀ isChatDisabled isEditing inputValue files,
        handleSubmitOrStop true isChatDisabled isEditing inputValue files
          = SubmitAction.stopGeneration) := by
  refine ⟨?_, ?_, ?_, fun _ _ _ _ => rfl⟩
  · intro h1 h2
    simp [startNewSend, h1, h2]
  · intro c hc
    simp [startNewSend, hc]
  · intro c s' hc hs'
    simp [startNewSend, hc] at hs'
    rw [← hs']

/-- C4 witness: the flagged-send-without-handle state refuses a submission;
the in-flight state accepts one, replacing handle 0 with handle 2 without
aborting anything; a submit while loading is a stop request. -/
theorem claim_C4_witness :
    startNewSend { isSendingMessage := true, abortHandle := none, abortedHandles := [] } 1 = none
    ∧ startNewSend { isSendingMessage := true, abortHandle := some 0, abortedHandles := [] } 2
        = some { isSendingMessage := true, abortHandle := some 2, abortedHandles := [] }
    ∧ handleSubmitOrStop true false false "hi" [] = SubmitAction.stopGeneration := by
  have h1 := claim_C4_amended { isSendingMessage := true, abortHandle := none, abortedHandles := [] } 1
  have h2 := claim_C4_amended { isSendingMessage := true, abortHandle := some 0, abortedHandles := [] } 2
  exact ⟨h1.1 rfl rfl, h2.2.1 0 rfl, h2.2.2.2 false false "hi" []⟩

/-- C5 amended: every edit whose new text trims to empty is rejected with
the empty-edit error banner and no other state change, regardless of
whether the edited message has attachments: histories, shown messages, the
persisted store, the edit state and the input are all left untouched. -/
theorem claim_C5_amended (s : AppState) (mid : String) (accumulated : String) (now : Nat)
    (aborted : Bool) (hEdit : s.editingMessageId = some mid)
    (hEmpty : jsTrim s.inputValue = "") :
    submitEdit s accumulated now aborted
      = { s with errorBanner := some "Cannot save an empty message. Please add some text or cancel edit." } := by
  unfold submitEdit
  rw [hEdit]
  simp [hEmpty]

/-- An edited USER message that carries an attachment. -/
def exAttachedMsg : ChatMessage :=
  { id := "u1", sender := Sender.user, timestamp := 1, textPart := some "look at this", fileParts := some [{ name := "pic.png", mimeType := "image/png", data := "data:image/png;base64,AAAA" }] }

/-- A session containing the attachment-carrying message. -/
def exSessionWithAttachment : ChatHistoryItem :=
  { id := "c1", title := "New Chat 10:00", messages := [exAttachedMsg], createdAt := 0, lastUpdatedAt := 1 }

/-- A state in which that message is being edited with whitespace-only
input. -/
def exStateEditingAttached : AppState :=
  { chatHistories := [exSessionWithAttachment]
    activeChatId := some "c1"
    currentMessages := [exAttachedMsg]
    editingMessageId := some "u1"
    inputValue := "   "
    isSendingMessage := false
    errorBanner := none
    persisted := [exSessionWithAttachment]
    persistedActiveId := some "c1" }

/-- C5 counterexample: the claim conditions the rejection on the edited
message having no attachments, but the code rejects a whitespace-only edit
even when the message does carry an attachment: the rejection fires and
nothing else changes. -/
theorem claim_C5_counterexample :
    exAttachedMsg.fileParts ≠ none
    ∧ jsTrim exStateEditingAttached.inputValue = ""
    ∧ (submitEdit exStateEditingAttached "acc" 5 false).errorBanner
        = some "Cannot save an empty message. Please add some text or cancel edit."
    ∧ (submitEdit exStateEditingAttached "acc" 5 false).chatHistories
        = exStateEditingAttached.chatHistories := by
  refine ⟨by decide, by decide, by decide, by decide⟩

/-- C5 witness: the amended rejection applied to the attachment-carrying
state: the full state is preserved except for the error banner. -/
theorem claim_C5_witness :
    submitEdit exStateEditingAttached "acc" 5 false
      = { exStateEditingAttached with errorBanner := some "Cannot save an empty message. Please add some text or cancel edit." } :=
  claim_C5_amended exStateEditingAttached "u1" "acc" 5 false rfl (by decide)

theorem zip_self_any_false (l : List ChatHistoryItem) (chatId : String) :
    ((l.zip l).any (fun p => p.1.title ≠ p.2.title && p.1.id = chatId)) = false := by
  induction l with
  | nil => rfl
  | cons a rest ih =>
    simp only [List.zip_cons_cons, List.any_cons, ih, Bool.or_false]
    simp

theorem zip_map_self (f : ChatHistoryItem → ChatHistoryItem) (l : List ChatHistoryItem) :
    (l.map f).zip l = l.map (fun x => (f x, x)) := by
  induction l with
  | nil => rfl
  | cons a rest ih => simp [ih]

theorem applyAiTitle_noSession (histories : List ChatHistoryItem) (chatId : String)
    (responseText : Option String) (hno : ∀ h ∈ histories, h.id ≠ chatId) :
    applyAiTitle histories chatId responseText = histories := by
  unfold applyAiTitle
  cases hrt : responseText.map jsTrim with
  | none => rfl
  | some t =>
    simp only
    by_cases hok : (t ≠ "" && t.length < 50) = true
    · rw [if_pos hok]
      have hmap : histories.map (fun h =>
          if h.id = chatId && jsStartsWith h.title "New Chat" then { h with title := t } else h)
          = histories :=
        map_eq_self_of _ _ (fun x hx => by simp [hno x hx])
      rw [hmap, zip_self_any_false]
      simp
    · rw [if_neg hok]

theorem applyAiTitle_preserves_renamed (histories : List ChatHistoryItem) (chatId : String)
    (responseText : Option String) (h : ChatHistoryItem) (hmem : h ∈ histories)
    (hrn : jsStartsWith h.title "New Chat" = false) :
    ∃ h' ∈ applyAiTitle histories chatId responseText, h'.id = h.id ∧ h'.title = h.title := by
  unfold applyAiTitle
  cases hrt : responseText.map jsTrim with
  | none => exact ⟨h, hmem, rfl, rfl⟩
  | some t =>
    simp only
    by_cases hok : (t ≠ "" && t.length < 50) = true
    · rw [if_pos hok]
      have hfh : (if h.id = chatId && jsStartsWith h.title "New Chat"
          then { h with title := t } else h) = h := by
        simp [hrn]
      split
      · exact ⟨h, mem_sortByRecency (hfh ▸ List.mem_map_of_mem _ hmem), rfl, rfl⟩
      · exact ⟨h, hmem, rfl, rfl⟩
    · rw [if_neg hok]
      exact ⟨h, hmem, rfl, rfl⟩

theorem applyAiTitle_change_inv (histories : List ChatHistoryItem) (chatId : String)
    (responseText : Option String)
    (hne : applyAiTitle histories chatId responseText ≠ histories) :
    ∃ t, responseText = some t ∧ jsTrim t ≠ "" ∧ (jsTrim t).length < 50
      ∧ ∃ h ∈ histories, h.id = chatId ∧ jsStartsWith h.title "New Chat" = true := by
  unfold applyAiTitle at hne
  cases hrt : responseText.map jsTrim with
  | none => rw [hrt] at hne; exact absurd rfl hne
  | some t =>
    rw [hrt] at hne
    simp only at hne
    obtain ⟨t0, ht0, htt⟩ := Option.map_eq_some'.mp hrt
    by_cases hok : (t ≠ "" && t.length < 50) = true
    · rw [if_pos hok] at hne
      have hok' : t ≠ "" ∧ t.length < 50 := by simpa using hok
      by_cases hdc : ((histories.map (fun h =>
          if h.id = chatId && jsStartsWith h.title "New Chat" then { h with title := t } else h)).zip
            histories).any (fun p => p.1.title ≠ p.2.title && p.1.id = chatId) = true
      · rw [zip_map_self] at hdc
        obtain ⟨x, hxmem, hp⟩ := List.any_eq_true.mp hdc
        obtain ⟨h, hmem, rfl⟩ := List.mem_map.mp hxmem
        have hp' : ((if h.id = chatId && jsStartsWith h.title "New Chat"
            then { h with title := t } else h).title ≠ h.title)
            ∧ (if h.id = chatId && jsStartsWith h.title "New Chat"
              then { h with title := t } else h).id = chatId := by
          simpa using hp
        by_cases hc : (h.id = chatId && jsStartsWith h.title "New Chat") = true
        · have hc' : h.id = chatId ∧ jsStartsWith h.title "New Chat" = true := by
            simpa using hc
          exact ⟨t0, ht0, htt ▸ hok'.1, htt ▸ hok'.2, h, hmem, hc'.1, hc'.2⟩
        · rw [if_neg hc] at hp'
          exact absurd rfl hp'.1
      · rw [Bool.not_eq_true] at hdc
        rw [hdc] at hne
        simp at hne
    · rw [if_neg hok] at hne
      exact absurd rfl hne

/-- C6: the title-inference completion overwrites a session title only when
the session still exists, its title is still in the auto-generated
placeholder form, and the trimmed candidate is non-empty and under the
50-character ceiling; a user-renamed title is never overwritten, and a
completion for a deleted session is a silent no-op. -/
theorem claim_C6 (histories : List ChatHistoryItem) (chatId : String)
    (responseText : Option String) :
    ((∀ h ∈ histories, h.id ≠ chatId) → applyAiTitle histories chatId responseText = histories)
    ∧ (∀ h ∈ histories, jsStartsWith h.title "New Chat" = false →
        ∃ h' ∈ applyAiTitle histories chatId responseText, h'.id = h.id ∧ h'.title = h.title)
    ∧ (applyAiTitle histories chatId responseText ≠ histories →
        ∃ t, responseText = some t ∧ jsTrim t ≠ "" ∧ (jsTrim t).length < 50
          ∧ ∃ h ∈ histories, h.id = chatId ∧ jsStartsWith h.title "New Chat" = true) :=
  ⟨applyAiTitle_noSession histories chatId responseText,
   fun h hmem hrn => applyAiTitle_preserves_renamed histories chatId responseText h hmem hrn,
   applyAiTitle_change_inv histories chatId responseText⟩

/-- C6 witness: a completion for a session id that no longer exists in the
store writes nothing. -/
theorem claim_C6_witness :
    applyAiTitle [{ id := "c1", title := "My custom title", messages := [], createdAt := 0, lastUpdatedAt := 0 }] "c2" (some "Great Title")
      = [{ id := "c1", title := "My custom title", messages := [], createdAt := 0, lastUpdatedAt := 0 }] :=
  (claim_C6 _ "c2" (some "Great Title")).1 (by decide)

/-- First USER message of the edit scenario. -/
def exC1U1 : ChatMessage := { id := "u1", sender := Sender.user, timestamp := 0, textPart := some "Hi" }

/-- The MODEL reply immediately following the edited message: the
regeneration target. -/
def exC1R1 : ChatMessage := { id := "r1", sender := Sender.ai, timestamp := 1, textPart := some "Hello!" }

/-- A later USER message, after the regeneration target. -/
def exC1U2 : ChatMessage := { id := "u2", sender := Sender.user, timestamp := 2, textPart := some "More" }

/-- A later MODEL message, after the regeneration target. -/
def exC1R2 : ChatMessage := { id := "r2", sender := Sender.ai, timestamp := 3, textPart := some "Sure." }

/-- C1 counterexample: editing the USER message u1, whose MODEL reply r1 is
followed by the further messages u2 and r2, completes with u2 and r2 still
present at their old positions: the conversation tail after the
regeneration target is retained, not truncated. -/
theorem claim_C1_counterexample :
    editAndRegenerate [exC1U1, exC1R1, exC1U2, exC1R2] "u1" "Hola" "Regenerated." 10 11 false
      = [updatedUserMessage exC1U1 "Hola" 10,
         finalRegeneratedAiMessage exC1R1 "Regenerated." 11 false,
         exC1U2, exC1R2]
    ∧ exC1U2 ∈ editAndRegenerate [exC1U1, exC1R1, exC1U2, exC1R2] "u1" "Hola" "Regenerated." 10 11 false
    ∧ exC1R2 ∈ editAndRegenerate [exC1U1, exC1R1, exC1U2, exC1R2] "u1" "Hola" "Regenerated." 10 11 false := by
  refine ⟨by decide, by decide, by decide⟩

/-- C1 amended: completing the edit of a USER message whose immediate
successor is a MODEL reply R leaves exactly one message at R's position,
the regenerated reply written under R's original message id, and retains
every message after R unchanged at its old position; no other message of
the session carries R's id. -/
theorem claim_C1_amended (msgs : List ChatMessage) (editId input accumulated : String)
    (tEdit tFinal : Nat) (aborted : Bool) (i : Nat) (R : ChatMessage)
    (hIdx : findMsgIndex msgs editId = some i)
    (hR : msgs[i + 1]? = some R)
    (hAi : R.sender = Sender.ai)
    (hNodup : (msgs.map ChatMessage.id).Nodup)
    (hne : input ≠ "") :
    (editAndRegenerate msgs editId input accumulated tEdit tFinal aborted).length = msgs.length
    ∧ (editAndRegenerate msgs editId input accumulated tEdit tFinal aborted)[i + 1]?
        = some (finalRegeneratedAiMessage R accumulated tFinal aborted)
    ∧ (finalRegeneratedAiMessage R accumulated tFinal aborted).id = R.id
    ∧ (∀ j m', j ≠ i + 1 →
        (editAndRegenerate msgs editId input accumulated tEdit tFinal aborted)[j]? = some m' →
        m'.id ≠ R.id)
    ∧ (∀ j, i + 1 < j →
        (editAndRegenerate msgs editId input accumulated tEdit tFinal aborted)[j]? = msgs[j]?) := by
  obtain ⟨M, hM, hMid⟩ := findMsgIndex_spec msgs editId i hIdx
  have hres : editAndRegenerate msgs editId input accumulated tEdit tFinal aborted
      = regenFinalMessages msgs editId R.id (updatedUserMessage M input tEdit)
          (finalRegeneratedAiMessage R accumulated tFinal aborted) := by
    unfold editAndRegenerate
    rw [if_neg hne]
    simp [hIdx, hM, hR, hAi]
  have hfid : ∀ m : ChatMessage,
      (if m.id = R.id then finalRegeneratedAiMessage R accumulated tFinal aborted
       else if m.id = editId then updatedUserMessage M input tEdit else m).id = m.id := by
    intro m
    by_cases h1 : m.id = R.id
    · simp [h1, finalRegeneratedAiMessage]
    · by_cases h2 : m.id = editId
      · rw [if_neg h1, if_pos h2]
        simp [updatedUserMessage, hMid, h2]
      · simp [h1, h2]
  refine ⟨?_, ?_, rfl, ?_, ?_⟩
  · rw [hres]
    unfold regenFinalMessages
    simp
  · rw [hres]
    unfold regenFinalMessages
    rw [List.getElem?_map, hR]
    simp
  · intro j m' hj hm'
    rw [hres] at hm'
    unfold regenFinalMessages at hm'
    rw [List.getElem?_map] at hm'
    cases hmj : msgs[j]? with
    | none => rw [hmj] at hm'; cases hm'
    | some m =>
      rw [hmj] at hm'
      simp only [Option.map_some'] at hm'
      cases hm'
      rw [hfid m]
      exact nodup_map_id_getElem?_ne hNodup hmj hR hj
  · intro j hij
    rw [hres]
    unfold regenFinalMessages
    rw [List.getElem?_map]
    cases hmj : msgs[j]? with
    | none => rfl
    | some m =>
      have hne1 : m.id ≠ R.id :=
        nodup_map_id_getElem?_ne hNodup hmj hR (Nat.ne_of_gt hij)
      have hne2 : m.id ≠ editId := by
        rw [← hMid]
        exact nodup_map_id_getElem?_ne hNodup hmj hM
          (by omega)
      simp [hne1, hne2]

/-- C1 witness: the amended statement applied to a four-message session in
which the first USER message is edited: the regenerated reply sits at
position 1 under the id r1, and positions 2 and 3 are unchanged. -/
theorem claim_C1_witness :
    (editAndRegenerate [exC1U1, exC1R1, exC1U2, exC1R2] "u1" "Hola" "Regen" 10 11 false).length = 4
    ∧ (editAndRegenerate [exC1U1, exC1R1, exC1U2, exC1R2] "u1" "Hola" "Regen" 10 11 false)[1]?
        = some (finalRegeneratedAiMessage exC1R1 "Regen" 11 false)
    ∧ (editAndRegenerate [exC1U1, exC1R1, exC1U2, exC1R2] "u1" "Hola" "Regen" 10 11 false)[3]?
        = [exC1U1, exC1R1, exC1U2, exC1R2][3]? := by
  have h := claim_C1_amended [exC1U1, exC1R1, exC1U2, exC1R2] "u1" "Hola" "Regen" 10 11 false
    0 exC1R1 (by decide) (by decide) (by decide) (by decide) (by decide)
  exact ⟨h.1, h.2.1, h.2.2.2.2 3 (by decide)⟩

end KHAI
